import Mathlib

/-!
Verification of the UAFT Helper GUI device-tool adapter (`UE_UAFT_Tool.py`).

The adapter's logic is pure string processing around one child-process
invocation: building argument vectors (`UAFT._base_args`), parsing the tool's
stdout line-by-line (`UAFT.devices`, `UAFT.packages`, `UAFT.list_traces`),
pulling a file (`UAFT.pull_trace`), a process runner (`run`), and a regex
package validator (`App._valid_package`).  We embed these as executable Lean
functions.  Python strings are modelled through their character lists; the
Python-specific primitives (`str.strip`, `str.lstrip("@")`, `str.lower`,
`str.splitlines`, truthiness) are reproduced for the ASCII range the tool
output lives in.
-/

namespace UAFTTool

/-- Characters stripped by Python `str.strip()` (ASCII whitespace:
space, tab, LF, CR, VT, FF). -/
def pyWS (c : Char) : Bool :=
  c.toNat = 32 || c.toNat = 9 || c.toNat = 10 || c.toNat = 13 ||
  c.toNat = 11 || c.toNat = 12

/-- `str.strip()` on the character list: drop ASCII whitespace at both ends. -/
def stripL (l : List Char) : List Char :=
  ((l.dropWhile pyWS).reverse.dropWhile pyWS).reverse

/-- Python `ln.strip()`. -/
def pyStrip (s : String) : String := ⟨stripL s.data⟩

/-- Python `ln.lstrip("@")`: drop every leading `@`. -/
def pyLstripAt (s : String) : String := ⟨s.data.dropWhile (· = '@')⟩

/-- Python `str.lower()` (ASCII case folding, which covers the tool output). -/
def pyLower (s : String) : String := ⟨s.data.map Char.toLower⟩

/-- Python `suffix in`-style check `s.endswith(suf)`. -/
def endsWithL (s suf : String) : Bool := suf.data.isSuffixOf s.data

/-- Python string truthiness: `bool(s)` is `True` iff `s` is non-empty;
`None` is falsy.  Used by `_base_args` through `if serial:` etc. -/
def truthy : Option String → Bool
  | none => false
  | some s => !s.data.isEmpty

/-- Python `a or b` on strings, as used in `RuntimeError(err or out)`. -/
def pyOr (a b : String) : String := if a.data.isEmpty then b else a

/-- Line-break characters recognised by Python `str.splitlines()`. -/
def pyLineBreak (c : Char) : Bool :=
  c.toNat = 10 || c.toNat = 13 || c.toNat = 11 || c.toNat = 12 ||
  c.toNat = 28 || c.toNat = 29 || c.toNat = 30 || c.toNat = 133 ||
  c.toNat = 8232 || c.toNat = 8233

/-- Worker for `str.splitlines()`: `acc` holds the current line reversed;
`\r\n` counts as a single break; no trailing empty line is produced. -/
def splitlinesGo : List Char → List Char → List (List Char)
  | [], acc => if acc.isEmpty then [] else [acc.reverse]
  | '\r' :: '\n' :: rest, acc => acc.reverse :: splitlinesGo rest []
  | c :: rest, acc =>
      if pyLineBreak c then acc.reverse :: splitlinesGo rest []
      else splitlinesGo rest (c :: acc)

/-- Python `out.splitlines()`. -/
def pySplitlines (s : String) : List String :=
  (splitlinesGo s.data []).map (fun l => ⟨l⟩)

/-- One optional flag of `_base_args`: Python `if v: args += [flag, v]`. -/
def optArg (flag : String) (v : Option String) : List String :=
  if truthy v then [flag, v.getD ""] else []

/-- `UAFT._base_args`: the executable path, then `-s serial` if serial is
truthy, else `-ip ip` if ip is truthy (serial takes precedence and ip is
ignored), then `-t port`, `-p package`, `-k token`, each only if truthy. -/
def base_args (uaft : String) (serial ip port package token : Option String) :
    List String :=
  [uaft] ++
    (if truthy serial then ["-s", serial.getD ""]
     else if truthy ip then ["-ip", ip.getD ""]
     else []) ++
    optArg "-t" port ++ optArg "-p" package ++ optArg "-k" token

/-- Second filter of `UAFT.devices`: keep a processed line iff it has no
space and is not the header token `devices` (case-insensitively). -/
def deviceKeep (ln : String) : Bool :=
  !(ln.data.contains ' ') && ((pyLower ln).data != "devices".data)

/-- Line parsing of `UAFT.devices`:
`lines = [ln.strip().lstrip("@") for ln in out.splitlines() if ln.strip()]`
then `[ln for ln in lines if " " not in ln and ln.lower() != "devices"]`. -/
def devices_parse (lines : List String) : List String :=
  ((lines.filter (fun ln => !(stripL ln.data).isEmpty)).map
      (fun ln => pyLstripAt (pyStrip ln))).filter deviceKeep

/-- `UAFT.devices` after the child process exits: raise `RuntimeError(err or
out)` on a non-zero code, else parse stdout. -/
def devices (code : Int) (out err : String) : Except String (List String) :=
  if code ≠ 0 then .error (pyOr err out)
  else .ok (devices_parse (pySplitlines out))

/-- Line parsing of `UAFT.packages`:
`[ln.strip() for ln in out.splitlines() if ln.strip() and "." in ln]`. -/
def packages_parse (lines : List String) : List String :=
  (lines.filter (fun ln => !(stripL ln.data).isEmpty && ln.data.contains '.')).map
    pyStrip

/-- `UAFT.packages` after the child process exits. -/
def packages (code : Int) (out err : String) : Except String (List String) :=
  if code ≠ 0 then .error (pyOr err out)
  else .ok (packages_parse (pySplitlines out))

/-- Line parsing of `UAFT.list_traces`: strip each line, keep those ending in
`.trace` or `.utrace`, in output order. -/
def list_traces_parse (lines : List String) : List String :=
  (lines.map pyStrip).filter
    (fun ln => endsWithL ln ".trace" || endsWithL ln ".utrace")

/-- `UAFT.list_traces` after the child process exits: a non-zero code means
the remote folder is missing and yields `[]` (never an error); otherwise the
stdout lines are parsed. -/
def list_traces (code : Int) (out _err : String) : Except String (List String) :=
  if code ≠ 0 then .ok []
  else .ok (list_traces_parse (pySplitlines out))

/-- How the OS-level `subprocess.Popen` call behaves for a given invocation:
it launches, or raises `PermissionError`, or raises `FileNotFoundError`
(missing executable). -/
inductive SpawnBehavior where
  | launches (returncode : Int) (stdout stderr : String)
  | permissionError (msg : String)
  | fileNotFoundError (msg : String)
deriving DecidableEq

/-- A Python exception escaping `run`: either the `RuntimeError` that `run`
itself raises, or a raw OS exception it did not catch. -/
inductive PyError where
  | runtimeError (msg : String)
  | fileNotFoundError (msg : String)
deriving DecidableEq

/-- The message of the `RuntimeError` raised by `run` on `PermissionError`
(ASCII-normalised punctuation; the structure literal-text / exe / text / cause
matches the f-string in the source). -/
def permMsg (exe emsg : String) : String :=
  "Permission error launching: " ++ exe ++
    " - check that it is an executable (.exe on Windows) and not blocked (Right-click > Properties > Unblock). Original: " ++
    emsg

/-- The `run` helper: `Popen` inside `try`, with only `PermissionError`
converted to a `RuntimeError` mentioning `cmd[0]`; a `FileNotFoundError`
escapes uncaught.  On a launch, `communicate` returns the triple
`(returncode, out, err)`.  (`cmd` is non-empty for every call site, so
`cmd[0]` is modelled by `cmd.headD ""`.) -/
def run (cmd : List String) (beh : SpawnBehavior) :
    Except PyError (Int × String × String) :=
  match beh with
  | .launches code out err => .ok (code, out, err)
  | .permissionError emsg => .error (.runtimeError (permMsg (cmd.headD "") emsg))
  | .fileNotFoundError emsg => .error (.fileNotFoundError emsg)

/-- Does a `run` result consist of the uniform `RuntimeError` failure value? -/
def isRuntimeError : Except PyError (Int × String × String) → Bool
  | .error (.runtimeError _) => true
  | _ => false

/-- Split a character list at a separator character (used for `.`-segments of
a package name and `/`-components of a remote path).  The result is always
non-empty; an empty input yields one empty segment, like Python `re`/`split`
semantics on the full string. -/
def splitCharL (sep : Char) : List Char → List (List Char)
  | [] => [[]]
  | c :: rest =>
      if c = sep then [] :: splitCharL sep rest
      else
        match splitCharL sep rest with
        | s :: ss => (c :: s) :: ss
        | [] => [[c]]

/-- Join segments with a separator: left inverse of `splitCharL`. -/
def joinCharL (sep : Char) : List (List Char) → List Char
  | [] => []
  | [s] => s
  | s :: t :: ss => s ++ sep :: joinCharL sep (t :: ss)

/-- A character of the regex class `[A-Za-z0-9_]`. -/
def isWordChar (c : Char) : Bool :=
  ('A' ≤ c && c ≤ 'Z') || ('a' ≤ c && c ≤ 'z') || ('0' ≤ c && c ≤ '9') || c = '_'

/-- A `[A-Za-z0-9_]+` group: non-empty, word characters only. -/
def segOK (seg : List Char) : Bool := !seg.isEmpty && seg.all isWordChar

/-- `App._valid_package`: implements
`re.fullmatch(r"[A-Za-z0-9_]+(\.[A-Za-z0-9_]+)+", pkg)` — at least two
non-empty word-character segments separated by single dots.  (Word characters
exclude the dot, so the greedy regex matches exactly the dot-split form;
the characterisation theorem below certifies this rendering.) -/
def valid_package (pkg : String) : Bool :=
  let segs := splitCharL '.' pkg.data
  decide (2 ≤ segs.length) && segs.all segOK

/-- A directory path, as its list of components. -/
abbrev Dir := List String

/-- The local filesystem state relevant to `pull_trace`: the set of existing
directories. -/
abbrev FS := List Dir

/-- All ancestor prefixes of a path, the root `[]` and the path included:
what `mkdir(parents=True)` brings into existence. -/
def ancestors : Dir → List Dir
  | [] => [[]]
  | x :: xs => [] :: (ancestors xs).map (fun p => x :: p)

/-- `pathlib.Path.mkdir(parents, exist_ok)` on the directory-set model:
an existing target raises `FileExistsError` unless `exist_ok`; with
`parents` all missing ancestors are created; without `parents` a missing
parent raises `FileNotFoundError`. -/
def mkdir (fs : FS) (d : Dir) (parents exist_ok : Bool) : Except String FS :=
  if d ∈ fs then
    if exist_ok then .ok fs else .error "FileExistsError"
  else if parents then .ok (ancestors d ++ fs)
  else if d.dropLast = [] ∨ d.dropLast ∈ fs then .ok (d :: fs)
  else .error "FileNotFoundError"

/-- The filesystem after `local_dir.mkdir(parents=True, exist_ok=True)`
(which never fails — see `mkdir_parents_exist_ok`). -/
def mkdirRun (fs : FS) (d : Dir) : FS :=
  if d ∈ fs then fs else ancestors d ++ fs

/-- `pathlib.Path(remote_file).name`: the last non-empty `/`-separated
component (remote UAFT paths are `/`-separated). -/
def pathName (p : String) : String :=
  ⟨((splitCharL '/' p.data).filter (fun s => !s.isEmpty)).getLastD []⟩

/-- `UAFT.pull_trace`: create the destination directory with
`mkdir(parents=True, exist_ok=True)`, run the tool, raise
`RuntimeError(err or out)` on a non-zero code, and on success return
`local_dir / Path(remote_file).name` (the joined path, as components). -/
def pull_trace (fs : FS) (local_dir : Dir) (remote_file : String)
    (code : Int) (out err : String) : Except String (FS × Dir) :=
  match mkdir fs local_dir true true with
  | .error e => .error e
  | .ok fs2 =>
      if code ≠ 0 then .error (pyOr err out)
      else .ok (fs2, local_dir ++ [pathName remote_file])

lemma truthy_none : truthy none = false := rfl

lemma truthy_some_empty : truthy (some "") = false := by decide

/-- C1: if `serial` is non-empty (truthy), the built argument vector contains
the serial flag `["-s", serial]` and equals `[uaft, "-s", serial]` followed
only by the port/package/token flags — so the IP flag is never emitted and
`ip` is ignored (the vector is the same as with `ip` absent), regardless of
whether `ip` is set.  If `serial` is empty/absent and `ip` is non-empty, the
vector contains the IP flag `["-ip", ip]` and equals `[uaft, "-ip", ip]`
followed only by the port/package/token flags — so no serial flag is
emitted. -/
theorem base_args_addressing (u : String)
    (serial ip port package token : Option String) :
    (truthy serial = true →
      (∃ pre post, base_args u serial ip port package token
          = pre ++ ["-s", serial.getD ""] ++ post)
      ∧ base_args u serial ip port package token
          = base_args u serial none port package token
      ∧ base_args u serial ip port package token
          = [u, "-s", serial.getD ""]
              ++ optArg "-t" port ++ optArg "-p" package ++ optArg "-k" token)
    ∧ (truthy serial = false → truthy ip = true →
      (∃ pre post, base_args u serial ip port package token
          = pre ++ ["-ip", ip.getD ""] ++ post)
      ∧ base_args u serial ip port package token
          = [u, "-ip", ip.getD ""]
              ++ optArg "-t" port ++ optArg "-p" package ++ optArg "-k" token) := by
  constructor
  · intro hs
    have he : base_args u serial ip port package token
        = [u, "-s", serial.getD ""]
            ++ optArg "-t" port ++ optArg "-p" package ++ optArg "-k" token := by
      simp [base_args, hs]
    refine ⟨⟨[u], optArg "-t" port ++ optArg "-p" package ++ optArg "-k" token,
        ?_⟩, ?_, he⟩
    · rw [he]; simp
    · rw [he]; simp [base_args, hs]
  · intro hs hi
    have he : base_args u serial ip port package token
        = [u, "-ip", ip.getD ""]
            ++ optArg "-t" port ++ optArg "-p" package ++ optArg "-k" token := by
      simp [base_args, hs, hi]
    refine ⟨⟨[u], optArg "-t" port ++ optArg "-p" package ++ optArg "-k" token,
        ?_⟩, he⟩
    rw [he]; simp

/-- Witness for C1 at a concrete connection-parameter set: with serial
`"R58M"` and ip `"10.0.0.5"` both set, the vector keeps the serial flag and
is identical to the vector built with no ip at all. -/
theorem base_args_addressing_witness :
    base_args "uaft.exe" (some "R58M") (some "10.0.0.5") (some "57099")
        (some "com.company.game") (some "tok")
      = base_args "uaft.exe" (some "R58M") none (some "57099")
        (some "com.company.game") (some "tok") :=
  ((base_args_addressing "uaft.exe" (some "R58M") (some "10.0.0.5")
      (some "57099") (some "com.company.game") (some "tok")).1 (by decide)).2.1

/-- C9: a connection-parameter field that is the empty string is treated
exactly like an absent field when building the argument vector; in
particular with serial empty, a non-empty ip still produces the IP flag. -/
theorem base_args_empty_field (u : String)
    (serial ip port package token : Option String) :
    base_args u (some "") ip port package token
        = base_args u none ip port package token
    ∧ base_args u serial (some "") port package token
        = base_args u serial none port package token
    ∧ base_args u serial ip (some "") package token
        = base_args u serial ip none package token
    ∧ base_args u serial ip port (some "") token
        = base_args u serial ip port none token
    ∧ base_args u serial ip port package (some "")
        = base_args u serial ip port package none
    ∧ (∀ s : String, s ≠ "" →
        ∃ pre post, base_args u (some "") (some s) port package token
          = pre ++ ["-ip", s] ++ post) := by
  refine ⟨by simp [base_args, truthy_some_empty, truthy_none],
    by simp [base_args, truthy_some_empty, truthy_none],
    by simp [base_args, optArg, truthy_some_empty, truthy_none],
    by simp [base_args, optArg, truthy_some_empty, truthy_none],
    by simp [base_args, optArg, truthy_some_empty, truthy_none], ?_⟩
  intro s hs
  have hd : s.data ≠ [] := by
    intro h
    apply hs
    cases s
    simp_all
  have ht : truthy (some s) = true := by
    simp [truthy, hd]
  refine ⟨[u], optArg "-t" port ++ optArg "-p" package ++ optArg "-k" token, ?_⟩
  simp [base_args, truthy_some_empty, ht]

/-- Witness for C9: empty-string serial with ip `"10.0.0.5"` emits the IP
flag. -/
theorem base_args_empty_field_witness :
    ∃ pre post, base_args "uaft.exe" (some "") (some "10.0.0.5") none none none
      = pre ++ ["-ip", "10.0.0.5"] ++ post :=
  (base_args_empty_field "uaft.exe" none (some "10.0.0.5") none none none).2.2.2.2.2
    "10.0.0.5" (by decide)

lemma str_append_assoc (a b c : String) : a ++ b ++ c = a ++ (b ++ c) :=
  String.ext (by simp)

/-- C2 counterexample: at a concrete invocation whose executable is missing,
`run` propagates the raw `FileNotFoundError` unchanged instead of raising the
uniform `RuntimeError` failure value — only `PermissionError` is caught. -/
theorem run_missing_exe_counterexample :
    run ["C:/Engine/UnrealAndroidFileTool.exe"]
        (.fileNotFoundError "[Errno 2] No such file or directory")
      = .error (.fileNotFoundError "[Errno 2] No such file or directory")
    ∧ isRuntimeError (run ["C:/Engine/UnrealAndroidFileTool.exe"]
        (.fileNotFoundError "[Errno 2] No such file or directory")) = false :=
  ⟨rfl, rfl⟩

/-- C2 (amended): only a permission-denied launch failure is converted by
`run` into the uniform `RuntimeError` failure value, whose message contains
the attempted executable path `cmd[0]`; a missing executable makes the raw
`FileNotFoundError` escape the runner unchanged. -/
theorem run_launch_failures (exe : String) (rest : List String) (emsg : String) :
    (∃ m, run (exe :: rest) (.permissionError emsg) = .error (.runtimeError m)
      ∧ ∃ pre post, m = pre ++ exe ++ post)
    ∧ run (exe :: rest) (.fileNotFoundError emsg)
        = .error (.fileNotFoundError emsg) := by
  refine ⟨⟨permMsg exe emsg, rfl, "Permission error launching: ",
    " - check that it is an executable (.exe on Windows) and not blocked (Right-click > Properties > Unblock). Original: "
      ++ emsg, ?_⟩, rfl⟩
  rw [permMsg, str_append_assoc]

/-- C3: for every connection-parameter set (hence every stdout/stderr), when
the tool invocation behind `list_traces` exits with a non-zero code the
operation returns the empty list wrapped in `.ok` — it never raises. -/
theorem list_traces_nonzero (code : Int) (out err : String) (h : code ≠ 0) :
    list_traces code out err = .ok [] := by
  simp [list_traces, h]

/-- Witness for C3 at exit code 1. -/
theorem list_traces_nonzero_witness :
    list_traces 1 "ls: ^saved/Traces: No such file or directory" "" = .ok [] :=
  list_traces_nonzero 1 "ls: ^saved/Traces: No such file or directory" ""
    (by decide)

lemma stripL_nil_all_ws {l : List Char} (h : stripL l = []) : ∀ c ∈ l, pyWS c := by
  unfold stripL at h
  rw [List.reverse_eq_nil_iff, List.dropWhile_eq_nil_iff] at h
  intro c hc
  rw [← List.takeWhile_append_dropWhile (p := pyWS) (l := l)] at hc
  rcases List.mem_append.mp hc with h1 | h2
  · exact List.mem_takeWhile_imp h1
  · exact h c (List.mem_reverse.mpr h2)

lemma contains_mem {l : List Char} {c : Char} : l.contains c = true ↔ c ∈ l :=
  List.elem_iff

lemma devices_parse_singleton (ln : String) :
    devices_parse [ln]
      = if (stripL ln.data).isEmpty then []
        else if deviceKeep (pyLstripAt (pyStrip ln))
          then [pyLstripAt (pyStrip ln)] else [] := by
  by_cases h : (stripL ln.data).isEmpty
  · simp [devices_parse, h]
  · by_cases hk : deviceKeep (pyLstripAt (pyStrip ln))
    · simp [devices_parse, h, hk]
    · simp [devices_parse, h, hk]

lemma devices_parse_append (l1 l2 : List String) :
    devices_parse (l1 ++ l2) = devices_parse l1 ++ devices_parse l2 := by
  simp [devices_parse, List.filter_append, List.map_append]

/-- C4 counterexample: the line `"A\tB"` contains whitespace (a tab) yet is
not dropped by the device-enumeration parser — the code only drops lines
containing a space character (`" " not in ln`), not arbitrary whitespace. -/
theorem devices_whitespace_counterexample :
    ("A\tB".data.any pyWS) = true ∧ devices_parse ["A\tB"] = ["A\tB"] := by
  constructor
  · decide
  · decide

/-- C4 (amended): on the concrete output lines the result is exactly
`["ABC123"]`; in general a line is dropped iff its Python `strip()` is
empty, or after `strip()` and removal of leading `"@"` it contains a space
character or equals `"devices"` case-insensitively; all other lines are kept
(as their `strip().lstrip("@")` form) in output order.  Other whitespace
(an embedded tab) does not cause a drop, and a line such as `"@@@"` that
becomes blank only through `@`-removal is kept, as `""`. -/
theorem devices_parse_amended :
    devices_parse ["List of devices attached", "ABC123", "DEF456 offline"]
      = ["ABC123"]
    ∧ (∀ ln : String,
        ((stripL ln.data).isEmpty = true
          ∨ (pyLstripAt (pyStrip ln)).data.contains ' ' = true
          ∨ pyLower (pyLstripAt (pyStrip ln)) = "devices")
        → devices_parse [ln] = [])
    ∧ (∀ ln : String, (stripL ln.data).isEmpty = false
        → (pyLstripAt (pyStrip ln)).data.contains ' ' = false
        → pyLower (pyLstripAt (pyStrip ln)) ≠ "devices"
        → devices_parse [ln] = [pyLstripAt (pyStrip ln)])
    ∧ (∀ l1 l2 : List String,
        devices_parse (l1 ++ l2) = devices_parse l1 ++ devices_parse l2)
    ∧ devices_parse ["@@@"] = [""] := by
  refine ⟨by decide, ?_, ?_, devices_parse_append, by decide⟩
  · intro ln h
    rw [devices_parse_singleton]
    rcases h with h | h | h
    · simp [h]
    · by_cases he : (stripL ln.data).isEmpty
      · simp [he]
      · simp [he, deviceKeep, contains_mem.mp h]
    · by_cases he : (stripL ln.data).isEmpty
      · simp [he]
      · have hd : (pyLower (pyLstripAt (pyStrip ln))).data = "devices".data :=
          congrArg String.data h
        simp [he, deviceKeep, hd]
  · intro ln he hc hne
    have hd : (pyLower (pyLstripAt (pyStrip ln))).data ≠ "devices".data :=
      fun h => hne (String.ext h)
    have hc' : ' ' ∉ (pyLstripAt (pyStrip ln)).data := fun h => by
      rw [contains_mem.mpr h] at hc
      simp at hc
    rw [devices_parse_singleton]
    simp [he, deviceKeep, hc', hd]

/-- Witness for C4 at a concrete input: the header line, which contains a
space after trimming, is dropped. -/
theorem devices_parse_amended_witness :
    devices_parse ["List of devices attached"] = [] :=
  devices_parse_amended.2.1 "List of devices attached"
    (Or.inr (Or.inl (by decide)))

/-- C10: the device-enumeration parser removes every leading `"@"` from a
trimmed line before filtering, so `"@ABC123"` yields `"ABC123"`; in general
the element a non-blank line contributes (when it survives the filter) is
`ln.strip().lstrip("@")`. -/
theorem devices_parse_lstrip_at :
    devices_parse ["@ABC123"] = ["ABC123"]
    ∧ (∀ ln : String, (stripL ln.data).isEmpty = false →
        devices_parse [ln]
          = if deviceKeep (pyLstripAt (pyStrip ln))
            then [pyLstripAt (pyStrip ln)] else []) := by
  refine ⟨by decide, ?_⟩
  intro ln he
  rw [devices_parse_singleton]
  simp [he]

/-- Witness for C10: the single line `"@@dev1"` has both leading `"@"`
characters removed. -/
theorem devices_parse_lstrip_at_witness :
    devices_parse ["@@dev1"]
      = if deviceKeep (pyLstripAt (pyStrip "@@dev1"))
        then [pyLstripAt (pyStrip "@@dev1")] else [] :=
  devices_parse_lstrip_at.2 "@@dev1" (by decide)

/-- C5: on the concrete output lines the result is exactly
`["com.company.game"]`; in general every kept entry is the `strip()` of a
non-empty input line containing a `"."`, every non-blank line containing a
`"."` is kept, and lines are processed in order. -/
theorem packages_parse_spec :
    packages_parse ["com.company.game", "not-a-package", ""]
      = ["com.company.game"]
    ∧ (∀ (lines : List String) (s : String), s ∈ packages_parse lines →
        ∃ ln, ln ∈ lines ∧ ln.data ≠ [] ∧ '.' ∈ ln.data ∧ s = pyStrip ln)
    ∧ (∀ ln : String, '.' ∈ ln.data →
        packages_parse [ln] = [pyStrip ln])
    ∧ (∀ l1 l2 : List String,
        packages_parse (l1 ++ l2) = packages_parse l1 ++ packages_parse l2) := by
  refine ⟨by decide, ?_, ?_, ?_⟩
  · intro lines s hs
    simp only [packages_parse, List.mem_map, List.mem_filter] at hs
    obtain ⟨ln, ⟨hmem, hp⟩, rfl⟩ := hs
    simp only [Bool.and_eq_true] at hp
    have hdot : '.' ∈ ln.data := by simpa using hp.2
    exact ⟨ln, hmem, List.ne_nil_of_mem hdot, hdot, rfl⟩
  · intro ln hdot
    have hne : stripL ln.data ≠ [] := by
      intro hnil
      have := stripL_nil_all_ws hnil '.' hdot
      simp [pyWS] at this
    have he : (stripL ln.data).isEmpty = false := by
      simpa using hne
    simp [packages_parse, he, hdot]
  · intro l1 l2
    simp [packages_parse, List.filter_append, List.map_append]

/-- Witness for C5: the single line `"com.a"` is non-blank and contains a
dot, so it is kept (as its own `strip()`). -/
theorem packages_parse_spec_witness :
    packages_parse ["com.a"] = [pyStrip "com.a"] :=
  packages_parse_spec.2.2.1 "com.a" (by decide)

/-- C6: on a zero exit code with the concrete output lines, `list_traces`
returns exactly `["Profiling_001.trace", "Run2.utrace"]`; in general a
(trimmed) line is kept iff it ends in `.trace` or `.utrace`, kept lines
appear in the tool's output order, and no line is altered beyond `strip()`. -/
theorem list_traces_parse_spec :
    list_traces 0 "Profiling_001.trace\nnotes.txt\nRun2.utrace" ""
      = .ok ["Profiling_001.trace", "Run2.utrace"]
    ∧ (∀ ln : String,
        (endsWithL (pyStrip ln) ".trace" || endsWithL (pyStrip ln) ".utrace")
          = true
        → list_traces_parse [ln] = [pyStrip ln])
    ∧ (∀ ln : String,
        (endsWithL (pyStrip ln) ".trace" || endsWithL (pyStrip ln) ".utrace")
          = false
        → list_traces_parse [ln] = [])
    ∧ (∀ l1 l2 : List String,
        list_traces_parse (l1 ++ l2)
          = list_traces_parse l1 ++ list_traces_parse l2) := by
  refine ⟨rfl, ?_, ?_, ?_⟩
  · intro ln h
    simp [list_traces_parse, h]
  · intro ln h
    simp [list_traces_parse, h]
  · intro l1 l2
    simp [list_traces_parse, List.filter_append, List.map_append]

/-- Witness for C6: `"Run2.utrace"` ends in a recognized suffix and is kept. -/
theorem list_traces_parse_spec_witness :
    list_traces_parse ["Run2.utrace"] = [pyStrip "Run2.utrace"] :=
  list_traces_parse_spec.2.1 "Run2.utrace" (by decide)

lemma splitCharL_ne_nil (sep : Char) (l : List Char) : splitCharL sep l ≠ [] := by
  cases l with
  | nil => simp [splitCharL]
  | cons c rest =>
      by_cases h : c = sep
      · simp [splitCharL, h]
      · simp only [splitCharL, if_neg h]
        cases splitCharL sep rest <;> simp

lemma joinCharL_cons (sep c : Char) (x : List Char) (xs : List (List Char)) :
    joinCharL sep ((c :: x) :: xs) = c :: joinCharL sep (x :: xs) := by
  cases xs <;> simp [joinCharL]

lemma join_splitCharL (sep : Char) (l : List Char) :
    joinCharL sep (splitCharL sep l) = l := by
  induction l with
  | nil => simp [splitCharL, joinCharL]
  | cons c rest ih =>
      by_cases h : c = sep
      · subst h
        simp only [splitCharL, if_pos rfl]
        obtain ⟨x, xs, hx⟩ := List.exists_cons_of_ne_nil (splitCharL_ne_nil c rest)
        rw [hx]
        rw [hx] at ih
        simp [joinCharL, ih]
      · simp only [splitCharL, if_neg h]
        obtain ⟨x, xs, hx⟩ := List.exists_cons_of_ne_nil (splitCharL_ne_nil sep rest)
        rw [hx]
        rw [hx] at ih
        rw [joinCharL_cons, ih]

lemma splitCharL_no_sep (sep : Char) (s : List Char) (h : sep ∉ s) :
    splitCharL sep s = [s] := by
  induction s with
  | nil => rfl
  | cons c rest ih =>
      have hc : ¬ c = sep := fun he => h (he ▸ List.mem_cons_self c rest)
      have hr := ih (fun hm => h (List.mem_cons_of_mem c hm))
      simp [splitCharL, hc, hr]

lemma splitCharL_append (sep : Char) (s rest : List Char) (h : sep ∉ s) :
    splitCharL sep (s ++ sep :: rest) = s :: splitCharL sep rest := by
  induction s with
  | nil => simp [splitCharL]
  | cons c s' ih =>
      have hc : ¬ c = sep := fun he => h (he ▸ List.mem_cons_self c s')
      have hr := ih (fun hm => h (List.mem_cons_of_mem c hm))
      simp [splitCharL, hc, hr]

lemma split_joinCharL (sep : Char) (segs : List (List Char))
    (hne : segs ≠ []) (hs : ∀ s ∈ segs, sep ∉ s) :
    splitCharL sep (joinCharL sep segs) = segs := by
  induction segs with
  | nil => exact absurd rfl hne
  | cons s ss ih =>
      cases ss with
      | nil =>
          simp only [joinCharL]
          exact splitCharL_no_sep sep s (hs s (List.mem_cons_self s []))
      | cons t ts =>
          have h1 : sep ∉ s := hs s (List.mem_cons_self s (t :: ts))
          have h2 := ih (by simp)
            (fun x hx => hs x (List.mem_cons_of_mem s hx))
          simp only [joinCharL]
          rw [splitCharL_append sep s _ h1, h2]

/-- C7: the package-shape validator accepts `"com.company.game"` and
`"a.b"`, rejects `""`, `"com:company"`, and `"singleword"`, and accepts
exactly the strings made of at least two non-empty letters/digits/underscore
segments joined by single dots. -/
theorem valid_package_spec :
    valid_package "com.company.game" = true
    ∧ valid_package "a.b" = true
    ∧ valid_package "" = false
    ∧ valid_package "com:company" = false
    ∧ valid_package "singleword" = false
    ∧ (∀ p : String, valid_package p = true ↔
        ∃ segs : List (List Char), 2 ≤ segs.length
          ∧ (∀ s ∈ segs, s ≠ [] ∧ ∀ c ∈ s, isWordChar c = true)
          ∧ p.data = joinCharL '.' segs) := by
  refine ⟨by decide, by decide, by decide, by decide, by decide, ?_⟩
  intro p
  constructor
  · intro hv
    simp only [valid_package, Bool.and_eq_true, decide_eq_true_eq,
      List.all_eq_true] at hv
    refine ⟨splitCharL '.' p.data, hv.1, ?_, (join_splitCharL '.' p.data).symm⟩
    intro s hsm
    have := hv.2 s hsm
    simp only [segOK, Bool.and_eq_true, Bool.not_eq_true',
      List.all_eq_true] at this
    exact ⟨by simpa using this.1, this.2⟩
  · rintro ⟨segs, hlen, hseg, hp⟩
    have hnosep : ∀ s ∈ segs, '.' ∉ s := by
      intro s hsm hdotm
      have := (hseg s hsm).2 '.' hdotm
      simp [isWordChar] at this
    have hne : segs ≠ [] := by
      intro h
      rw [h] at hlen
      simp at hlen
    have hsplit : splitCharL '.' p.data = segs := by
      rw [hp]
      exact split_joinCharL '.' segs hne hnosep
    simp only [valid_package, hsplit, Bool.and_eq_true, decide_eq_true_eq,
      List.all_eq_true]
    refine ⟨hlen, ?_⟩
    intro s hsm
    have := hseg s hsm
    simp only [segOK, Bool.and_eq_true, Bool.not_eq_true', List.all_eq_true]
    exact ⟨by simpa using this.1, this.2⟩

/-- Witness for C7: the characterisation applied to `"a.b"` produces its
two-segment decomposition. -/
theorem valid_package_spec_witness :
    ∃ segs : List (List Char), 2 ≤ segs.length
      ∧ (∀ s ∈ segs, s ≠ [] ∧ ∀ c ∈ s, isWordChar c = true)
      ∧ ("a.b" : String).data = joinCharL '.' segs :=
  (valid_package_spec.2.2.2.2.2 "a.b").mp (by decide)

lemma mem_ancestors_self (d : Dir) : d ∈ ancestors d := by
  induction d with
  | nil => simp [ancestors]
  | cons x xs ih =>
      simp only [ancestors, List.mem_cons, List.mem_map]
      exact Or.inr ⟨xs, ih, rfl⟩

lemma mkdir_parents_exist_ok (fs : FS) (d : Dir) :
    mkdir fs d true true = .ok (mkdirRun fs d) := by
  by_cases h : d ∈ fs <;> simp [mkdir, mkdirRun, h]

lemma mem_mkdirRun_self (fs : FS) (d : Dir) : d ∈ mkdirRun fs d := by
  by_cases h : d ∈ fs
  · simp only [mkdirRun, if_pos h]
    exact h
  · simp only [mkdirRun, if_neg h]
    exact List.mem_append_left fs (mem_ancestors_self d)

/-- C8: with a zero exit code, `pull_trace` succeeds and returns the
destination directory joined with the remote file's base name; the
destination directory is created first — all its ancestors when it was
absent — and creating it never errors when it already exists, so a second
identical call succeeds with the same filesystem. -/
theorem pull_trace_spec (fs : FS) (d : Dir) (r : String) (out err : String) :
    pull_trace fs d r 0 out err = .ok (mkdirRun fs d, d ++ [pathName r])
    ∧ d ∈ mkdirRun fs d
    ∧ (d ∉ fs → ∀ p ∈ ancestors d, p ∈ mkdirRun fs d)
    ∧ pull_trace (mkdirRun fs d) d r 0 out err
        = .ok (mkdirRun fs d, d ++ [pathName r]) := by
  refine ⟨?_, mem_mkdirRun_self fs d, ?_, ?_⟩
  · simp [pull_trace, mkdir_parents_exist_ok]
  · intro h p hp
    simp only [mkdirRun, if_neg h]
    exact List.mem_append_left fs hp
  · have h2 : mkdir (mkdirRun fs d) d true true = .ok (mkdirRun fs d) := by
      simp [mkdir, mem_mkdirRun_self fs d]
    simp [pull_trace, h2]

/-- Witness for C8 on an empty filesystem: pulling into
`["home", "UnrealTraces"]` creates the parent directory `["home"]`. -/
theorem pull_trace_spec_witness :
    ["home"] ∈ mkdirRun [] ["home", "UnrealTraces"] :=
  (pull_trace_spec [] ["home", "UnrealTraces"] "Traces/Run2.utrace" "" "").2.2.1
    (by decide) ["home"] (by decide)

end UAFTTool
